import Mathlib

/-!
Verification of the OpenAI node of this repository
(src/backend/src/core/nodes/openai/openai.py): the conversation buffer,
the role/content accumulator, the function registry, and the completion
gateway method named make_completion below (underscore-prefixed in the
source).  The vendor SDK call and the token-budget trimming collaborator
are external: they are modelled as parameters (ExtApi, Trim) of the
gateway.  Machine-level concerns do not arise; everything is plain data
manipulation over lists and strings, embedded directly.
-/

/-- A serialized message record, as produced by the pydantic method
dict with exclude_none set: an ordered association list holding only the
present fields. -/
abbrev MsgDict := List (String × String)

/-- A serialized function-definition record, as produced by the redefined
dict method that has no exclude_none argument: every field appears, absent
ones as explicit nulls (here: none). -/
abbrev FuncDict := List (String × Option String)

/-- Modelled from the spec: openai_model.py is not under src/ (only its
importer openai.py is).  Per the spec data model, a Message holds a role,
a content text, a name and a function_call payload, each field optional
(the streaming delta is a partial Message, so every field may be absent);
serialization omits absent fields.  The structured function_call payload
is abstracted as a string. -/
structure Message where
  role : Option String
  content : Option String
  name : Option String
  function_call : Option String
deriving DecidableEq

/-- Serialization of a Message with absent fields omitted, in the field
order of the model: the embedding of msg.dict(exclude_none=True). -/
def Message.dictExcludeNone (m : Message) : MsgDict :=
  (m.role.map (fun r => ("role", r))).toList ++
  (m.content.map (fun c => ("content", c))).toList ++
  (m.name.map (fun n => ("name", n))).toList ++
  (m.function_call.map (fun f => ("function_call", f))).toList

/-- Modelled from the spec: openai_model.py is not under src/.  A
function-definition descriptor; the spec fixes no field list, only that
its serialization omits nothing, so a minimal shape with one required and
two optional fields is used. -/
structure FunctionDefinition where
  name : String
  description : Option String
  parameters : Option String
deriving DecidableEq

/-- Serialization of a FunctionDefinition with all fields included (the
redefined dict method of the source has no exclude_none argument). -/
def FunctionDefinition.dictFull (f : FunctionDefinition) : FuncDict :=
  [("name", some f.name), ("description", f.description), ("parameters", f.parameters)]

/-- Modelled from the spec: the shared configuration bundle of every chat
input shape: model identifier, append-history flag, use-streaming flag. -/
structure ChatConfig where
  model : String
  append_history : Bool
  use_streaming : Bool
deriving DecidableEq

/-- The mutable state of one OpenAINode instance: the conversation buffer
(history), the function registry (functions), and the two fields of the
role/content accumulator (cur_role, cur_content). -/
structure OpenAINode where
  history : List MsgDict
  functions : List FuncDict
  cur_role : Option String
  cur_content : Option String
deriving DecidableEq

/-- The state right after the constructor of OpenAINode runs: empty
buffer, empty registry, empty accumulator. -/
def OpenAINode.init : OpenAINode :=
  ⟨[], [], none, none⟩

/-- The guard the source tests before flushing the accumulator:
cur_role is not None and cur_content is not None. -/
def OpenAINode.pendingBothSet (s : OpenAINode) : Bool :=
  s.cur_role.isSome && s.cur_content.isSome

/-- The Message the source builds from the accumulator fields when it
flushes them. -/
def OpenAINode.pendingMessage (s : OpenAINode) : Message :=
  ⟨s.cur_role, s.cur_content, none, none⟩

/-- Embedding of OpenAINode.add_single_message: if both accumulator
fields are set, append the pending message to the buffer and reset the
accumulator; then append the given message. -/
def OpenAINode.add_single_message (s : OpenAINode) (msg : Message) : OpenAINode :=
  let s1 :=
    if s.pendingBothSet then
      { s with
        history := s.history ++ [s.pendingMessage.dictExcludeNone],
        cur_role := none,
        cur_content := none }
    else s
  { s1 with history := s1.history ++ [msg.dictExcludeNone] }

/-- Embedding of OpenAINode.add_system_message. -/
def OpenAINode.add_system_message (s : OpenAINode) (content : String) : OpenAINode :=
  s.add_single_message ⟨some ("system"), some content, none, none⟩

/-- Embedding of OpenAINode.add_role: if both accumulator fields are set,
pass the pending message to add_single_message (which flushes the still
set accumulator first and then appends its argument); then set the new
role.  The source never clears cur_content here except through the flush
inside add_single_message. -/
def OpenAINode.add_role (s : OpenAINode) (role : String) : OpenAINode :=
  let s1 :=
    if s.pendingBothSet then s.add_single_message s.pendingMessage else s
  { s1 with cur_role := some role }

/-- Embedding of OpenAINode.add_content: concatenate onto the pending
content, or set it if absent. -/
def OpenAINode.add_content (s : OpenAINode) (content : String) : OpenAINode :=
  { s with
    cur_content :=
      match s.cur_content with
      | some c => some (c ++ content)
      | none => some content }

/-- Embedding of OpenAINode.add_function: append the full serialization
of the definition to the registry. -/
def OpenAINode.add_function (s : OpenAINode) (fd : FunctionDefinition) : OpenAINode :=
  { s with functions := s.functions ++ [fd.dictFull] }

/-- Modelled from the spec: the non-streaming response shape, a complete
message plus a finish reason. -/
structure OpenAIResp where
  message : Message
  finish_reason : String
deriving DecidableEq

/-- Modelled from the spec: the streaming response shape, exposing the
incremental delta fields of the first chunk. -/
structure OpenAIStreamingResp where
  delta : Message
  finish_reason : String
deriving DecidableEq

/-- Modelled from the spec: the first choice of a successful vendor
response, carrying the fields each response shape reads from it. -/
structure Choice where
  message : Message
  delta : Message
  finish_reason : String
deriving DecidableEq

/-- Outcome of the external completion call: an exception (stringified)
or a first choice. -/
inductive ExtOutcome where
  | fail (e : String)
  | ok (choice : Choice)
deriving DecidableEq

/-- The outgoing request assembled into kwargs by the gateway. -/
structure Request where
  model : String
  messages : List MsgDict
  functions : Option (List FuncDict)
  function_call : Option String
  stream : Option Bool
deriving DecidableEq

/-- The union return type of the gateway: OpenAIResp or
OpenAIStreamingResp. -/
inductive CompletionResult where
  | nonStreaming (resp : OpenAIResp)
  | streaming (resp : OpenAIStreamingResp)
deriving DecidableEq

/-- The token-budget trimming collaborator (tokentrim), external to this
repository: an arbitrary function of the window and the model name. -/
abbrev Trim := List MsgDict → String → List MsgDict

/-- The external completion API (openai.ChatCompletion.create), a
function of the assembled request. -/
abbrev ExtApi := Request → ExtOutcome

/-- The fixed default system message used to seed the outgoing window
when the buffer is empty. -/
def defaultSystemMessage : Message :=
  ⟨some ("system"),
   some ("You are a helpful AI assistant. You should answer the user\x27s questions and help them with their tasks."),
   none, none⟩

/-- Construction of cur_messages in the gateway: seed with the default
system message when the stored buffer is empty, otherwise start from the
full stored buffer; then append every new message serialized.  The buffer
read here is the one from before the append-history commits, exactly as
in the source, where cur_messages is extended from self.history before
the commit loop runs. -/
def buildWindow (history : List MsgDict) (messages : List Message) : List MsgDict :=
  (if history.length = 0 then [defaultSystemMessage.dictExcludeNone] else history) ++
    messages.map Message.dictExcludeNone

/-- The append-history commit loop of the gateway: when the flag is set,
each new message is pushed through add_single_message in order. -/
def OpenAINode.commitPhase (s : OpenAINode) (messages : List Message) (input : ChatConfig) : OpenAINode :=
  if input.append_history then messages.foldl OpenAINode.add_single_message s else s

/-- The synthesized soft-failure response of the gateway. -/
def errorResp (e : String) : OpenAIResp :=
  ⟨⟨some ("system"), some ("Error occurred: " ++ e), none, none⟩, "error"⟩

/-- The kwargs assembled by the gateway: model, trimmed window, the
function registry with automatic call mode when non-empty, the stream
flag when streaming is requested.  The registry is read after the commit
phase, as in the source (the commits do not touch it). -/
def OpenAINode.completionRequest (trim : Trim) (s : OpenAINode)
    (messages : List Message) (input : ChatConfig) : Request :=
  let s1 := s.commitPhase messages input
  { model := input.model,
    messages := trim (buildWindow s.history messages) input.model,
    functions := if 0 < s1.functions.length then some s1.functions else none,
    function_call := if 0 < s1.functions.length then some ("auto") else none,
    stream := if input.use_streaming then some true else none }

/-- Embedding of the gateway (the underscore-prefixed make-completion
method of the source): build the window, run the commit phase, assemble
the request, invoke the external call; on failure return the synthesized
error response, on success shape the first choice (streaming or not) and,
when append-history is set, commit the response content to the buffer.
Returns the final node state, the assembled request, and the response. -/
def OpenAINode.make_completion (trim : Trim) (ext : ExtApi) (s : OpenAINode)
    (messages : List Message) (input : ChatConfig) :
    OpenAINode × Request × CompletionResult :=
  let s1 := s.commitPhase messages input
  let req := s.completionRequest trim messages input
  match ext req with
  | ExtOutcome.fail e => (s1, req, CompletionResult.nonStreaming (errorResp e))
  | ExtOutcome.ok choice =>
    if input.use_streaming then
      let resp : OpenAIStreamingResp := ⟨choice.delta, choice.finish_reason⟩
      (if input.append_history then
        { s1 with history := s1.history ++ [resp.delta.dictExcludeNone] }
       else s1,
       req, CompletionResult.streaming resp)
    else
      let resp : OpenAIResp := ⟨choice.message, choice.finish_reason⟩
      (if input.append_history then
        { s1 with history := s1.history ++ [resp.message.dictExcludeNone] }
       else s1,
       req, CompletionResult.nonStreaming resp)

/-- The records an accumulator flush would append right now: one when
both fields are set, none otherwise. -/
def flushEntry (s : OpenAINode) : List MsgDict :=
  if s.pendingBothSet then [s.pendingMessage.dictExcludeNone] else []

/-- The records the commit loop appends to the buffer: nothing for an
empty message list; otherwise one possible flush entry followed by the
serialized new messages in order. -/
def commitList (s : OpenAINode) (messages : List Message) : List MsgDict :=
  if messages.isEmpty then [] else flushEntry s ++ messages.map Message.dictExcludeNone

/-- The record the response-commit step appends to the buffer: on
success with append-history set, the serialized delta (streaming) or
message (non-streaming); otherwise nothing. -/
def respCommit (outcome : ExtOutcome) (input : ChatConfig) : List MsgDict :=
  match outcome with
  | ExtOutcome.fail _ => []
  | ExtOutcome.ok c =>
    if input.append_history then
      if input.use_streaming then [c.delta.dictExcludeNone] else [c.message.dictExcludeNone]
    else []

lemma add_single_message_eq (s : OpenAINode) (msg : Message) :
    s.add_single_message msg =
      ⟨s.history ++ flushEntry s ++ [msg.dictExcludeNone], s.functions,
       if s.pendingBothSet then none else s.cur_role,
       if s.pendingBothSet then none else s.cur_content⟩ := by
  cases hb : s.pendingBothSet <;>
    simp [OpenAINode.add_single_message, flushEntry, hb]

lemma add_single_message_pending (s : OpenAINode) (msg : Message) :
    (s.add_single_message msg).pendingBothSet = false := by
  rw [add_single_message_eq]
  cases hb : s.pendingBothSet
  · simp only [hb, Bool.false_eq_true, if_false]
    simpa [OpenAINode.pendingBothSet] using hb
  · simp [OpenAINode.pendingBothSet, hb]

lemma flushEntry_empty (s : OpenAINode) (h : s.pendingBothSet = false) :
    flushEntry s = [] := by
  simp [flushEntry, h]

lemma foldl_no_pending (s : OpenAINode) (msgs : List Message)
    (h : s.pendingBothSet = false) :
    msgs.foldl OpenAINode.add_single_message s =
      ⟨s.history ++ msgs.map Message.dictExcludeNone, s.functions,
       s.cur_role, s.cur_content⟩ := by
  induction msgs generalizing s with
  | nil => simp
  | cons m rest ih =>
      simp only [List.foldl_cons]
      rw [ih (s.add_single_message m) (add_single_message_pending s m)]
      rw [add_single_message_eq]
      simp [flushEntry_empty s h, h]

lemma foldl_history (s : OpenAINode) (msgs : List Message) :
    (msgs.foldl OpenAINode.add_single_message s).history =
      s.history ++ commitList s msgs := by
  cases msgs with
  | nil => simp [commitList]
  | cons m rest =>
      simp only [List.foldl_cons]
      rw [foldl_no_pending (s.add_single_message m) rest (add_single_message_pending s m)]
      rw [add_single_message_eq]
      simp [commitList, List.append_assoc]

lemma foldl_functions (s : OpenAINode) (msgs : List Message) :
    (msgs.foldl OpenAINode.add_single_message s).functions = s.functions := by
  induction msgs generalizing s with
  | nil => rfl
  | cons m rest ih =>
      simp only [List.foldl_cons]
      rw [ih, add_single_message_eq]

lemma commitPhase_history (s : OpenAINode) (msgs : List Message) (input : ChatConfig) :
    (s.commitPhase msgs input).history =
      s.history ++ (if input.append_history then commitList s msgs else []) := by
  unfold OpenAINode.commitPhase
  cases h : input.append_history <;> simp [h, foldl_history]

lemma commitPhase_functions (s : OpenAINode) (msgs : List Message) (input : ChatConfig) :
    (s.commitPhase msgs input).functions = s.functions := by
  unfold OpenAINode.commitPhase
  cases h : input.append_history <;> simp [h, foldl_functions]

lemma make_completion_req (trim : Trim) (ext : ExtApi) (s : OpenAINode)
    (msgs : List Message) (input : ChatConfig) :
    (OpenAINode.make_completion trim ext s msgs input).2.1 =
      s.completionRequest trim msgs input := by
  unfold OpenAINode.make_completion
  rcases hx : ext (s.completionRequest trim msgs input) with e | c
  · simp [hx]
  · cases hs : input.use_streaming <;> cases ha : input.append_history <;>
      simp [hx, hs, ha]

lemma make_completion_history (trim : Trim) (ext : ExtApi) (s : OpenAINode)
    (msgs : List Message) (input : ChatConfig) :
    (OpenAINode.make_completion trim ext s msgs input).1.history =
      s.history ++ (if input.append_history then commitList s msgs else []) ++
        respCommit (ext (s.completionRequest trim msgs input)) input := by
  unfold OpenAINode.make_completion respCommit
  rcases hx : ext (s.completionRequest trim msgs input) with e | c
  · simp [hx, commitPhase_history]
  · cases hs : input.use_streaming <;> cases ha : input.append_history <;>
      simp [hx, hs, ha, commitPhase_history]

lemma foldl_add_function (s : OpenAINode) (fds : List FunctionDefinition) :
    fds.foldl OpenAINode.add_function s =
      { s with functions := s.functions ++ fds.map FunctionDefinition.dictFull } := by
  induction fds generalizing s with
  | nil => simp
  | cons fd rest ih =>
      simp only [List.foldl_cons]
      rw [ih]
      simp [OpenAINode.add_function]

/-- A trimming collaborator that keeps the window unchanged, for concrete
runs. -/
def trimId : Trim := fun ms _ => ms

/-- A fixed successful first choice, for concrete runs. -/
def choiceOk1 : Choice :=
  ⟨⟨some ("assistant"), some ("hi"), none, none⟩, ⟨none, some ("hi"), none, none⟩, "stop"⟩

/-- An external call that always succeeds with choiceOk1. -/
def extOk1 : ExtApi := fun _ => ExtOutcome.ok choiceOk1

/-- An external call that always raises, stringified as boom. -/
def extAlwaysFail : ExtApi := fun _ => ExtOutcome.fail ("boom")

/-- An external call whose first streaming chunk has an empty delta, as
the final chunk of a real streaming response does. -/
def extEmptyDelta : ExtApi := fun _ =>
  ExtOutcome.ok ⟨⟨some ("assistant"), some ("hi"), none, none⟩, ⟨none, none, none, none⟩, "stop"⟩

/-- A concrete user message, for concrete runs. -/
def userHi : Message := ⟨some ("user"), some ("hi"), none, none⟩

/-- A node whose accumulator holds both a role and a content. -/
def pendAccum : OpenAINode := ⟨[], [], some ("user"), some ("x")⟩

/-- C1: the claim says the sequence begin_role user, append a, append b,
begin_role assistant appends exactly one message with role user and
content ab.  Evaluating the code at that very sequence shows the buffer
gains TWO identical copies of that message: add_role flushes the pending
accumulator by passing it to add_single_message, which first flushes the
still-set accumulator itself and then appends its argument — the same
record — a second time.  The flush-once behaviour the claim (and the
spec) describe is clearly the intent; the double append is a slip of the
code. -/
theorem claim1_roundtrip_double_append :
    ((((OpenAINode.init.add_role ("user")).add_content ("a")).add_content ("b")).add_role ("assistant")).history
        = [[("role", "user"), ("content", "ab")], [("role", "user"), ("content", "ab")]] ∧
      ¬ ((((OpenAINode.init.add_role ("user")).add_content ("a")).add_content ("b")).add_role ("assistant")).history.length = 1 := by
  decide

/-- C2, counterexample: with a pending accumulator holding both fields,
one new message and a successful call under append_history, the buffer
grows by three entries (flush, message, response), not by the claimed
two. -/
theorem claim2_counterexample :
    ((OpenAINode.make_completion trimId extOk1 pendAccum [userHi] ⟨"gpt", true, false⟩).1).history.length = 3 ∧
      ¬ ((OpenAINode.make_completion trimId extOk1 pendAccum [userHi] ⟨"gpt", true, false⟩).1).history.length = 0 + 1 + 1 := by
  decide

/-- C2, amended: for every non-empty new-message list with
append_history set, PROVIDED the pending accumulator is not fully set
and the external call succeeds, the stored buffer grows by exactly the
number of new messages plus one: the serialized new messages in order,
then the serialized response (delta when streaming, message otherwise). -/
theorem claim2_growth (trim : Trim) (ext : ExtApi) (s : OpenAINode)
    (msgs : List Message) (input : ChatConfig) (c : Choice)
    (hne : msgs ≠ [])
    (hap : input.append_history = true)
    (hpend : s.pendingBothSet = false)
    (hok : ext (s.completionRequest trim msgs input) = ExtOutcome.ok c) :
    (OpenAINode.make_completion trim ext s msgs input).1.history =
        s.history ++ msgs.map Message.dictExcludeNone ++
          [if input.use_streaming then c.delta.dictExcludeNone else c.message.dictExcludeNone] ∧
      (OpenAINode.make_completion trim ext s msgs input).1.history.length =
        s.history.length + msgs.length + 1 := by
  obtain ⟨m, rest, rfl⟩ := List.exists_cons_of_ne_nil hne
  have h1 := make_completion_history trim ext s (m :: rest) input
  rw [hok, hap] at h1
  have hcl : commitList s (m :: rest) = (m :: rest).map Message.dictExcludeNone := by
    simp [commitList, flushEntry_empty s hpend]
  have hrc : respCommit (ExtOutcome.ok c) input =
      [if input.use_streaming then c.delta.dictExcludeNone else c.message.dictExcludeNone] := by
    cases hsr : input.use_streaming <;> simp [respCommit, hap, hsr]
  rw [hcl, hrc] at h1
  simp only [if_true] at h1
  refine ⟨h1, ?_⟩
  rw [h1]
  simp [List.length_append]
  omega

/-- C2, witness: a concrete successful run from the initial node with one
new message grows the buffer to exactly two entries. -/
theorem claim2_growth_witness :
    (OpenAINode.make_completion trimId extOk1 OpenAINode.init [userHi] ⟨"gpt", true, false⟩).1.history =
        OpenAINode.init.history ++ [userHi].map Message.dictExcludeNone ++
          [if (ChatConfig.mk "gpt" true false).use_streaming then choiceOk1.delta.dictExcludeNone
           else choiceOk1.message.dictExcludeNone] ∧
      (OpenAINode.make_completion trimId extOk1 OpenAINode.init [userHi] ⟨"gpt", true, false⟩).1.history.length =
        OpenAINode.init.history.length + [userHi].length + 1 :=
  claim2_growth trimId extOk1 OpenAINode.init [userHi] ⟨"gpt", true, false⟩ choiceOk1
    (by decide) rfl rfl rfl

/-- C3: whatever exception the external completion call raises, the
gateway returns a normal non-streaming response whose message has role
system, whose content embeds the stringified failure, and whose finish
reason is error; nothing propagates. -/
theorem claim3_error_swallow (trim : Trim) (ext : ExtApi) (s : OpenAINode)
    (msgs : List Message) (input : ChatConfig) (e : String)
    (hfail : ext (s.completionRequest trim msgs input) = ExtOutcome.fail e) :
    (OpenAINode.make_completion trim ext s msgs input).2.2 =
        CompletionResult.nonStreaming (errorResp e) ∧
      (errorResp e).message.role = some ("system") ∧
      (errorResp e).finish_reason = "error" ∧
      ∃ pre : String, (errorResp e).message.content = some (pre ++ e) := by
  refine ⟨?_, rfl, rfl, "Error occurred: ", rfl⟩
  unfold OpenAINode.make_completion
  simp [hfail]

/-- C3, witness: a concrete failing run returns the synthesized error
response. -/
theorem claim3_error_swallow_witness :
    (OpenAINode.make_completion trimId extAlwaysFail OpenAINode.init [] ⟨"gpt", false, false⟩).2.2 =
        CompletionResult.nonStreaming (errorResp ("boom")) ∧
      (errorResp ("boom")).message.role = some ("system") ∧
      (errorResp ("boom")).finish_reason = "error" ∧
      ∃ pre : String, (errorResp ("boom")).message.content = some (pre ++ "boom") :=
  claim3_error_swallow trimId extAlwaysFail OpenAINode.init [] ⟨"gpt", false, false⟩ ("boom") rfl

/-- C4: when the stored buffer is empty at the start of a gateway call,
the window handed to the trimming collaborator begins with the fixed
default system message, and that seed is never written into the stored
buffer by the call itself (the hypotheses exclude the degenerate cases
in which the caller or the vendor response explicitly supplies a message
equal to the seed). -/
theorem claim4_seed_window (trim : Trim) (ext : ExtApi) (s : OpenAINode)
    (msgs : List Message) (input : ChatConfig)
    (hemp : s.history = [])
    (hmsg : defaultSystemMessage.dictExcludeNone ∉ msgs.map Message.dictExcludeNone)
    (hpend : defaultSystemMessage.dictExcludeNone ∉ flushEntry s)
    (hresp : ∀ c, ext (s.completionRequest trim msgs input) = ExtOutcome.ok c →
        c.message.dictExcludeNone ≠ defaultSystemMessage.dictExcludeNone ∧
        c.delta.dictExcludeNone ≠ defaultSystemMessage.dictExcludeNone) :
    (buildWindow s.history msgs).head? = some defaultSystemMessage.dictExcludeNone ∧
      defaultSystemMessage.dictExcludeNone ∉
        (OpenAINode.make_completion trim ext s msgs input).1.history := by
  constructor
  · rw [hemp]
    simp [buildWindow]
  · intro hmem
    rw [make_completion_history trim ext s msgs input, hemp] at hmem
    simp only [List.nil_append, List.mem_append] at hmem
    rcases hmem with hA | hB
    · revert hA
      cases ha : input.append_history
      · simp
      · simp only [if_true]
        cases msgs with
        | nil => simp [commitList]
        | cons m rest =>
            intro hA
            simp only [commitList, List.isEmpty_cons, Bool.false_eq_true, if_false] at hA
            rcases List.mem_append.mp hA with h1 | h2
            · exact hpend h1
            · exact hmsg h2
    · revert hB
      rcases hx : ext (s.completionRequest trim msgs input) with e | c
      · simp [respCommit]
      · have hc := hresp c hx
        cases ha : input.append_history <;> cases hs : input.use_streaming <;>
          simp [respCommit, ha, hs, Ne.symm hc.1, Ne.symm hc.2]

/-- C4, witness: a concrete empty-buffer run seeds the window with the
default system message and the final buffer does not hold the seed. -/
theorem claim4_seed_window_witness :
    (buildWindow OpenAINode.init.history [userHi]).head? =
        some defaultSystemMessage.dictExcludeNone ∧
      defaultSystemMessage.dictExcludeNone ∉
        (OpenAINode.make_completion trimId extOk1 OpenAINode.init [userHi] ⟨"gpt", true, false⟩).1.history :=
  claim4_seed_window trimId extOk1 OpenAINode.init [userHi] ⟨"gpt", true, false⟩
    rfl (by decide) (by decide)
    (by
      intro c hc
      injection hc with h
      subst h
      exact ⟨by decide, by decide⟩)

/-- C5: after registering a list of function definitions on a node whose
registry started empty, a completion call attaches exactly that list of
full serializations (one per registered definition, every field present,
no omission of absent ones) and sets function_call to auto; with an
empty registry both fields are absent from the outgoing request. -/
theorem claim5_function_registry (trim : Trim) (ext : ExtApi) (hist : List MsgDict)
    (r c : Option String) (fds : List FunctionDefinition)
    (msgs : List Message) (input : ChatConfig) :
    (OpenAINode.make_completion trim ext (fds.foldl OpenAINode.add_function ⟨hist, [], r, c⟩) msgs input).2.1.functions =
        (if fds.isEmpty then none else some (fds.map FunctionDefinition.dictFull)) ∧
      (OpenAINode.make_completion trim ext (fds.foldl OpenAINode.add_function ⟨hist, [], r, c⟩) msgs input).2.1.function_call =
        (if fds.isEmpty then none else some ("auto")) ∧
      (fds.map FunctionDefinition.dictFull).length = fds.length ∧
      fds.map (fun fd => (FunctionDefinition.dictFull fd).map Prod.fst) =
        fds.map (fun _ => ["name", "description", "parameters"]) := by
  rw [make_completion_req, foldl_add_function]
  refine ⟨?_, ?_, by simp, by simp [FunctionDefinition.dictFull]⟩ <;>
    · unfold OpenAINode.completionRequest
      simp only [commitPhase_functions]
      cases fds <;> simp

/-- C6, counterexample: the claim says pending content is always absent
after begin-role; starting from an accumulator holding content but no
role, add_role leaves the content in place. -/
theorem claim6_counterexample :
    ¬ (((OpenAINode.mk [] [] none (some ("x"))).add_role ("user")).cur_content = none) := by
  decide

/-- C6, amended: begin-role flushes the pending accumulator when both
fields are set — appending the completed pending message TWICE, because
the flush is routed through add_single_message which itself flushes the
still-set accumulator before appending its argument — and only that
flush clears the pending content; it then sets the new role.  When the
accumulator did not hold both fields, the buffer and the pending content
are left unchanged, so content without a role survives begin-role. -/
theorem claim6_add_role_behavior (s : OpenAINode) (r : String) :
    s.add_role r =
      if s.pendingBothSet then
        ⟨s.history ++ [s.pendingMessage.dictExcludeNone, s.pendingMessage.dictExcludeNone],
         s.functions, some r, none⟩
      else
        ⟨s.history, s.functions, some r, s.cur_content⟩ := by
  unfold OpenAINode.add_role
  cases hb : s.pendingBothSet
  · simp [hb]
  · rw [add_single_message_eq]
    simp [hb, flushEntry]

/-- C7, counterexample: the claim says no operation ever appends a record
with both role and content absent; committing a streaming response whose
first chunk has an empty delta (as the final chunk of a real stream does)
appends exactly such an empty record to the buffer. -/
theorem claim7_counterexample :
    ∃ d ∈ (OpenAINode.make_completion trimId extEmptyDelta OpenAINode.init []
        ⟨"gpt", true, true⟩).1.history,
      d.lookup ("role") = none ∧ d.lookup ("content") = none := by
  decide

/-- C7, amended: the accumulator flush never appends a record with both
role and content absent — any buffer entry of a gateway call that is not
prior history, not a serialized caller message and not the committed
response must come from the flush, and a flushed record always carries
both a role and a content.  The direct-append and response-commit paths
append the records they are given, so a both-absent record reaches the
buffer only when the caller or the vendor response supplies one. -/
theorem claim7_flush_provenance (trim : Trim) (ext : ExtApi) (s : OpenAINode)
    (msgs : List Message) (input : ChatConfig) (d : MsgDict)
    (hd : d ∈ (OpenAINode.make_completion trim ext s msgs input).1.history)
    (hhist : d ∉ s.history)
    (hmsg : d ∉ msgs.map Message.dictExcludeNone)
    (hresp : ∀ c, ext (s.completionRequest trim msgs input) = ExtOutcome.ok c →
        d ≠ c.message.dictExcludeNone ∧ d ≠ c.delta.dictExcludeNone) :
    (d.lookup ("role")).isSome = true ∧ (d.lookup ("content")).isSome = true := by
  rw [make_completion_history trim ext s msgs input] at hd
  simp only [List.mem_append] at hd
  have hflush : d ∈ flushEntry s := by
    rcases hd with (h1 | h2) | h3
    · exact absurd h1 hhist
    · revert h2
      cases ha : input.append_history
      · simp
      · simp only [if_true]
        cases msgs with
        | nil => simp [commitList]
        | cons m rest =>
            intro h2
            simp only [commitList, List.isEmpty_cons, Bool.false_eq_true, if_false] at h2
            rcases List.mem_append.mp h2 with hf | hm
            · exact hf
            · exact absurd hm hmsg
    · exfalso
      revert h3
      rcases hx : ext (s.completionRequest trim msgs input) with e | ch
      · simp [respCommit]
      · have hc := hresp ch hx
        cases ha : input.append_history <;> cases hs : input.use_streaming <;>
          simp [respCommit, ha, hs, hc.1, hc.2]
  revert hflush
  unfold flushEntry
  cases hb : s.pendingBothSet
  · simp
  · intro hflush
    simp only [if_true, List.mem_singleton] at hflush
    subst hflush
    unfold OpenAINode.pendingBothSet at hb
    rw [Bool.and_eq_true] at hb
    obtain ⟨hr, hc2⟩ := hb
    obtain ⟨r0, hr0⟩ := Option.isSome_iff_exists.mp hr
    obtain ⟨c0, hc0⟩ := Option.isSome_iff_exists.mp hc2
    simp [OpenAINode.pendingMessage, Message.dictExcludeNone, hr0, hc0, List.lookup]

/-- C7, witness: in a concrete run with a set accumulator and a failing
external call, the flushed entry carries both a role and a content. -/
theorem claim7_flush_provenance_witness :
    (([("role", "user"), ("content", "x")] : MsgDict).lookup ("role")).isSome = true ∧
      (([("role", "user"), ("content", "x")] : MsgDict).lookup ("content")).isSome = true :=
  claim7_flush_provenance trimId extAlwaysFail pendAccum [userHi] ⟨"gpt", true, false⟩
    [("role", "user"), ("content", "x")]
    (by decide) (by decide) (by decide)
    (fun c hc => ExtOutcome.noConfusion hc)

/-- C8: for every trimming collaborator and every external call, the
stored buffer after a gateway call equals the buffer before it plus
exactly the explicit append-history commits (commit loop, then response
commit); and the outgoing window sent in the request is computed purely
from the pre-call buffer.  In particular the seeding and the trim of the
window never mutate the stored buffer. -/
theorem claim8_window_never_mutates_buffer (trim : Trim) (ext : ExtApi)
    (s : OpenAINode) (msgs : List Message) (input : ChatConfig) :
    (OpenAINode.make_completion trim ext s msgs input).1.history =
        s.history ++ (if input.append_history then commitList s msgs else []) ++
          respCommit (ext (s.completionRequest trim msgs input)) input ∧
      (OpenAINode.make_completion trim ext s msgs input).2.1.messages =
        trim (buildWindow s.history msgs) input.model := by
  refine ⟨make_completion_history trim ext s msgs input, ?_⟩
  rw [make_completion_req]
  rfl

/-- C9: when append_history is set and the external call fails, the new
messages committed before the call stay in the buffer (they are its
suffix), no response entry is appended, and the synthesized error
response is returned: no rollback. -/
theorem claim9_no_rollback (trim : Trim) (ext : ExtApi) (s : OpenAINode)
    (msgs : List Message) (input : ChatConfig) (e : String)
    (hap : input.append_history = true)
    (hfail : ext (s.completionRequest trim msgs input) = ExtOutcome.fail e) :
    (OpenAINode.make_completion trim ext s msgs input).1.history =
        s.history ++ commitList s msgs ∧
      List.IsSuffix (msgs.map Message.dictExcludeNone)
        ((OpenAINode.make_completion trim ext s msgs input).1.history) ∧
      (OpenAINode.make_completion trim ext s msgs input).2.2 =
        CompletionResult.nonStreaming (errorResp e) := by
  have h1 := make_completion_history trim ext s msgs input
  rw [hfail, hap] at h1
  simp only [if_true, respCommit, List.append_nil] at h1
  refine ⟨h1, ?_, ?_⟩
  · rw [h1]
    cases msgs with
    | nil => exact ⟨s.history ++ commitList s [], by simp⟩
    | cons m rest =>
        refine ⟨s.history ++ flushEntry s, ?_⟩
        simp [commitList, List.append_assoc]
  · unfold OpenAINode.make_completion
    simp [hfail]

/-- C9, witness: a concrete failing run with append_history keeps the
committed message and returns the error response. -/
theorem claim9_no_rollback_witness :
    (OpenAINode.make_completion trimId extAlwaysFail OpenAINode.init [userHi] ⟨"gpt", true, false⟩).1.history =
        OpenAINode.init.history ++ commitList OpenAINode.init [userHi] ∧
      List.IsSuffix ([userHi].map Message.dictExcludeNone)
        ((OpenAINode.make_completion trimId extAlwaysFail OpenAINode.init [userHi] ⟨"gpt", true, false⟩).1.history) ∧
      (OpenAINode.make_completion trimId extAlwaysFail OpenAINode.init [userHi] ⟨"gpt", true, false⟩).2.2 =
        CompletionResult.nonStreaming (errorResp ("boom")) :=
  claim9_no_rollback trimId extAlwaysFail OpenAINode.init [userHi] ⟨"gpt", true, false⟩
    ("boom") rfl rfl

/-- C10: when streaming is requested and the external call fails, the
gateway returns the NON-streaming shape carrying the synthesized error
response; no streaming response (no delta field) is produced on the
failure path. -/
theorem claim10_streaming_failure_shape (trim : Trim) (ext : ExtApi) (s : OpenAINode)
    (msgs : List Message) (input : ChatConfig) (e : String)
    (hstream : input.use_streaming = true)
    (hfail : ext (s.completionRequest trim msgs input) = ExtOutcome.fail e) :
    (OpenAINode.make_completion trim ext s msgs input).2.2 =
        CompletionResult.nonStreaming (errorResp e) ∧
      ∀ r : OpenAIStreamingResp,
        (OpenAINode.make_completion trim ext s msgs input).2.2 ≠
          CompletionResult.streaming r := by
  have h1 : (OpenAINode.make_completion trim ext s msgs input).2.2 =
      CompletionResult.nonStreaming (errorResp e) := by
    unfold OpenAINode.make_completion
    simp [hfail]
  refine ⟨h1, ?_⟩
  intro r hr
  rw [h1] at hr
  exact CompletionResult.noConfusion hr

/-- C10, witness: a concrete failing streaming run returns the
non-streaming error response. -/
theorem claim10_streaming_failure_shape_witness :
    (OpenAINode.make_completion trimId extAlwaysFail OpenAINode.init [] ⟨"gpt", false, true⟩).2.2 =
        CompletionResult.nonStreaming (errorResp ("boom")) ∧
      ∀ r : OpenAIStreamingResp,
        (OpenAINode.make_completion trimId extAlwaysFail OpenAINode.init [] ⟨"gpt", false, true⟩).2.2 ≠
          CompletionResult.streaming r :=
  claim10_streaming_failure_shape trimId extAlwaysFail OpenAINode.init [] ⟨"gpt", false, true⟩
    ("boom") rfl rfl
